import Mathlib

/-!
Verification development for the metadata-extraction engine of
`src/lib/scraper.ts` (link-to-share).  The TypeScript module is shallowly
embedded: every DOM query, network call and vendor-JSON payload is an
explicit environment parameter, while all logic of the module itself
(truthiness chains, selector loops, regex matching, routing, fallback
policy) is translated function by function.  Events record which outbound
network calls the orchestrator issues, so "the fallback is never invoked"
becomes a statement about the event trace.
-/

/-! ## JavaScript value model

`scraper.ts` declares every record field as `string | null`, but a field fed
directly from an untyped JSON payload can also end up `undefined`.  `JsStr`
keeps the three cases apart. -/

/-- A JavaScript value that is expected to be a string or null; `undef`
models `undefined` leaking out of an untyped vendor payload. -/
inductive JsStr where
  | undef : JsStr
  | nullv : JsStr
  | str : String → JsStr
deriving DecidableEq, Repr

/-- JS truthiness of a string-or-null-or-undefined value: only a non-empty
string is truthy. -/
def JsStr.truthy : JsStr → Bool
  | .str s => !(s == "")
  | _ => false

/-- JS `a || b`. -/
def jsOr (a b : JsStr) : JsStr := if a.truthy then a else b

/-- A JS expression that is a string or `undefined` (for example
`$(sel).attr(name)` or `payload.field`), as a `JsStr`. -/
def jsOfOpt : Option String → JsStr
  | none => .undef
  | some s => .str s

/-- JS `x || null` for a possibly-undefined string `x`. -/
def jsOrNull (a : JsStr) : JsStr := jsOr a .nullv

/-- A TypeScript `string | null` value as a `JsStr` (no `undefined` case). -/
def optJs : Option String → JsStr
  | none => .nullv
  | some s => .str s

/-- JS truthiness of a `string | null` value. -/
def optTruthy : Option String → Bool
  | none => false
  | some s => !(s == "")

/-- The `ScrapedData` interface of `scraper.ts`: the normalized record every
extraction path returns.  The interface declares each field `string | null`;
`JsStr` additionally lets the embedding observe an `undefined` slipping in. -/
structure ScrapedData where
  title : JsStr
  description : JsStr
  image : JsStr
  url : JsStr
  author : JsStr
  publicationDate : JsStr
  pages : JsStr
deriving DecidableEq, Repr

/-! ## Character and string utilities

JS string builtins (`trim`, `toLowerCase`, `substring`, regex matching) are
modelled at the character-list level so that everything evaluates inside the
kernel. -/

/-- Whitespace for the purposes of JS `trim` and the `\s` regex class
(ASCII part; the sources only ever meet ASCII here). -/
def isJsSpace (c : Char) : Bool :=
  c == ' ' || c == '\t' || c == '\n' || c == '\r' || c == '\x0b' || c == '\x0c'

/-- The JS regex `\w` class: `[A-Za-z0-9_]`. -/
def isWordChar (c : Char) : Bool := c.isAlphanum || c == '_'

/-- Models `String.prototype.trim()`. -/
def jsTrim (s : String) : String :=
  String.mk (((s.toList.dropWhile isJsSpace).reverse.dropWhile isJsSpace).reverse)

/-- Models `String.prototype.toLowerCase()` on the ASCII strings met here. -/
def lowerStr (s : String) : String := String.mk (s.toList.map Char.toLower)

/-- Models `String.prototype.substring(0, n)` (the module only truncates from
the front). -/
def jsSubstring (s : String) (n : Nat) : String := String.mk (s.toList.take n)

/-- Case-sensitive literal match at the head: the rest of the input after the
pattern, or `none`. -/
def dropLit : List Char → List Char → Option (List Char)
  | [], s => some s
  | _ :: _, [] => none
  | p :: ps, c :: cs => if p == c then dropLit ps cs else none

/-- Case-insensitive literal match at the head. -/
def dropCI : List Char → List Char → Option (List Char)
  | [], s => some s
  | _ :: _, [] => none
  | p :: ps, c :: cs => if p.toLower == c.toLower then dropCI ps cs else none

/-- Case-insensitive test that the pattern occurs at the head. -/
def ciStarts (p s : List Char) : Bool :=
  match dropCI p s with
  | some _ => true
  | none => false

/-- Case-sensitive test that the pattern occurs at the head. -/
def litStarts (p s : List Char) : Bool :=
  match dropLit p s with
  | some _ => true
  | none => false

/-- Models `String.prototype.includes(pat)`. -/
def hasSub (p : List Char) : List Char → Bool
  | [] => p.isEmpty
  | c :: rest => litStarts p (c :: rest) || hasSub p rest

/-- Left-to-right scan of a regex engine: try the step at every start
position, first success wins. -/
def scanFirst {α : Type} (step : List Char → Option α) : List Char → Option α
  | [] => none
  | c :: rest =>
    match step (c :: rest) with
    | some r => some r
    | none => scanFirst step rest

/-- Joins with a separator, as JS `Array.prototype.join`. -/
def joinWith (sep : String) : List String → String
  | [] => ""
  | x :: xs => xs.foldl (fun a b => a ++ sep ++ b) x

/-! ## The parsed-document abstraction

cheerio is the external HTML parser; a `Doc` packages the query results the
module can ask of a parsed document.  Each field mirrors one cheerio call
shape used in `scraper.ts`. -/

/-- A parsed HTML document, abstracted to the cheerio queries `scraper.ts`
performs.  `attr sel name` is `$(sel).attr(name)`, `attrFirst` the
`.first()` variant; `text sel` is `$(sel).text()`, `textFirst` the
`.first()` variant; `found sel` is `$(sel).length > 0`; `findPTexts sel`
lists the texts of `$(sel).find('p')`; `listTexts sel` the texts of each
element matched by `sel`; `dynJson` models `JSON.parse` of the
`data-a-dynamic-image` attribute followed by `Object.keys` enumeration
(url, width, height per entry, `none` when parsing throws). -/
structure Doc where
  attr : String → String → Option String
  attrFirst : String → String → Option String
  text : String → String
  textFirst : String → String
  found : String → Bool
  findPTexts : String → List String
  listTexts : String → List String
  dynJson : String → Option (List (String × Nat × Nat))

/-- A document where every query comes back empty, the base for the concrete
test documents. -/
def emptyDoc : Doc where
  attr := fun _ _ => none
  attrFirst := fun _ _ => none
  text := fun _ => ""
  textFirst := fun _ => ""
  found := fun _ => false
  findPTexts := fun _ => []
  listTexts := fun _ => []
  dynJson := fun _ => none

/-! ## Generic metadata reader (`extractTitle` … `extractCanonicalUrl`) -/

/-- Tail of `extractTitle`: the `<title>` element, then the first `<h1>`. -/
def extractTitleTag (d : Doc) : Option String :=
  let t := d.text "title"
  if !(t == "") then some (jsTrim t)
  else
    let h := d.textFirst "h1"
    if !(h == "") then some (jsTrim h) else none

/-- Tail of `extractTitle` from the Twitter Card source on. -/
def extractTitleTw (d : Doc) : Option String :=
  match d.attr "meta[name=\"twitter:title\"]" "content" with
  | some s =>
    if !(s == "") then some (jsTrim s) else extractTitleTag d
  | none => extractTitleTag d

/-- `extractTitle`: Open Graph title, then Twitter Card title, then the
`<title>` element, then the first `<h1>`. -/
def extractTitle (d : Doc) : Option String :=
  match d.attr "meta[property=\"og:title\"]" "content" with
  | some s =>
    if !(s == "") then some (jsTrim s) else extractTitleTw d
  | none => extractTitleTw d

/-- Tail of `extractDescription`: the standard meta description. -/
def extractDescriptionMeta (d : Doc) : Option String :=
  match d.attr "meta[name=\"description\"]" "content" with
  | some s => if !(s == "") then some (jsTrim s) else none
  | none => none

/-- Tail of `extractDescription` from the Twitter Card source on. -/
def extractDescriptionTw (d : Doc) : Option String :=
  match d.attr "meta[name=\"twitter:description\"]" "content" with
  | some s =>
    if !(s == "") then some (jsTrim s) else extractDescriptionMeta d
  | none => extractDescriptionMeta d

/-- `extractDescription`: Open Graph, then Twitter Card, then the standard
meta description. -/
def extractDescription (d : Doc) : Option String :=
  match d.attr "meta[property=\"og:description\"]" "content" with
  | some s =>
    if !(s == "") then some (jsTrim s) else extractDescriptionTw d
  | none => extractDescriptionTw d

/-- Tail of `extractImage`: `$('article img').first().attr('src')`. -/
def extractImageArticle (d : Doc) : Option String :=
  match d.attrFirst "article img" "src" with
  | some s => if !(s == "") then some s else none
  | none => none

/-- Tail of `extractImage` from the Twitter Card source on. -/
def extractImageTw (d : Doc) : Option String :=
  match d.attr "meta[name=\"twitter:image\"]" "content" with
  | some s =>
    if !(s == "") then some s else extractImageArticle d
  | none => extractImageArticle d

/-- `extractImage`: Open Graph image, then Twitter Card image, then the
first image inside an `<article>` (values returned untrimmed, as in the
source). -/
def extractImage (d : Doc) : Option String :=
  match d.attr "meta[property=\"og:image\"]" "content" with
  | some s =>
    if !(s == "") then some s else extractImageTw d
  | none => extractImageTw d

/-- The byline class selectors of `extractAuthor`. -/
def authorSelectors : List String := [".author", ".byline", ".author-name", "[rel=\"author\"]"]

/-- The selector loop at the end of `extractAuthor`. -/
def authorLoop (d : Doc) : List String → Option String
  | [] => none
  | sel :: rest =>
    let a := d.textFirst sel
    if !(a == "") then some (jsTrim a) else authorLoop d rest

/-- Tail of `extractAuthor`: Schema.org `itemprop=author`, then the byline
selector loop. -/
def extractAuthorSchema (d : Doc) : Option String :=
  let a := d.textFirst "[itemprop=\"author\"]"
  if !(a == "") then some (jsTrim a) else authorLoop d authorSelectors

/-- Tail of `extractAuthor` from the standard author meta on. -/
def extractAuthorMeta (d : Doc) : Option String :=
  match d.attr "meta[name=\"author\"]" "content" with
  | some s =>
    if !(s == "") then some (jsTrim s) else extractAuthorSchema d
  | none => extractAuthorSchema d

/-- `extractAuthor`: article-author meta, then author meta, then the
Schema.org author, then common byline selectors. -/
def extractAuthor (d : Doc) : Option String :=
  match d.attr "meta[property=\"article:author\"]" "content" with
  | some s =>
    if !(s == "") then some (jsTrim s) else extractAuthorMeta d
  | none => extractAuthorMeta d

/-- Tail of `extractCanonicalUrl`: the Open Graph URL, else the original. -/
def extractCanonicalOg (d : Doc) (originalUrl : String) : String :=
  match d.attr "meta[property=\"og:url\"]" "content" with
  | some u => if !(u == "") then u else originalUrl
  | none => originalUrl

/-- `extractCanonicalUrl`: the canonical link, else the Open Graph URL, else
the original URL. -/
def extractCanonicalUrl (d : Doc) (originalUrl : String) : String :=
  match d.attr "link[rel=\"canonical\"]" "href" with
  | some c =>
    if !(c == "") then c else extractCanonicalOg d originalUrl
  | none => extractCanonicalOg d originalUrl

/-! ## Lead-paragraph heuristic (`LEAD_SELECTORS`, `extractLongDescription`) -/

/-- The ranked selector list `LEAD_SELECTORS` of `scraper.ts`. -/
def LEAD_SELECTORS : List String :=
  [ "p.paragraph:first-of-type"
  , ".paragraph:first-of-type"
  , "article header p"
  , ".article-intro"
  , ".article__intro"
  , ".article-lead"
  , ".article__lead"
  , ".lead"
  , ".intro"
  , ".subtitle"
  , ".article-subtitle"
  , ".article__subtitle"
  , ".entradilla"
  , ".sumario"
  , ".excerpt"
  , "[itemprop=\"description\"]"
  , "[itemprop=\"articleBody\"] > p:first-of-type"
  , "article > p:first-of-type"
  , ".content > p:first-of-type"
  , ".article-body > p:first-of-type"
  , ".article__body > p:first-of-type"
  , ".story-body > p:first-of-type"
  , ".post-content > p:first-of-type" ]

/-- The selector loop of `extractLongDescription`: first matched element
whose trimmed text exceeds 50 characters and beats the meta description. -/
def leadLoop (d : Doc) (metaDescription : Option String) : List String → Option String
  | [] => none
  | sel :: rest =>
    if d.found sel then
      let text := jsTrim (d.textFirst sel)
      if text.length > 50 &&
          (!(optTruthy metaDescription) || text.length > (metaDescription.getD "").length) then
        some text
      else leadLoop d metaDescription rest
    else leadLoop d metaDescription rest

/-- `extractLongDescription($, metaDescription)`. -/
def extractLongDescription (d : Doc) (metaDescription : Option String) : Option String :=
  leadLoop d metaDescription LEAD_SELECTORS

/-! ## Challenge-page detection -/

/-- The challenge phrasings of the anti-bot regex in `scrapeUrl`. -/
def challengePhrases : List String :=
  ["just a moment", "attention required", "please wait", "checking your browser", "one more step"]

/-- The test `/^(just a moment|attention required|please wait|checking your
browser|one more step)/i.test(title)`: some phrase is a case-insensitive
prefix of the title. -/
def isChallengeTitle (t : String) : Bool :=
  challengePhrases.any fun p => ciStarts p.toList t.toList

/-! ## Outbound network events

Which calls the engine issues, in order; a pure rendering of the side
effects of `scraper.ts`. -/

/-- One outbound network call of the engine. -/
inductive Ev where
  | fetchTarget : Ev
  | microlinkCall : Ev
  | ytOembedCall : Ev
  | fxCall : Ev
  | twOembedCall : Ev
deriving DecidableEq, Repr

/-! ## YouTube extractor -/

/-- The oEmbed JSON payload of the YouTube extractor; each field may be
absent (`undefined`). -/
structure YtPayload where
  title : Option String
  author_name : Option String
  thumbnail_url : Option String
deriving DecidableEq, Repr

/-- Outcome of the oEmbed call in `extractYouTubeData`: `fail` covers a
thrown fetch, a non-ok response and a JSON parse failure (all reach the
catch block). -/
inductive YtOutcome where
  | fail : YtOutcome
  | success : YtPayload → YtOutcome
deriving DecidableEq, Repr

/-- Characters `[^&?/]` of the video-id capture class. -/
def notSep (c : Char) : Bool := !(c == '&') && !(c == '?') && !(c == '/')

/-- The capture `([^&?/]+)`: at least one character. -/
def tryCapture (rest : List Char) : Option (List Char) :=
  let cap := rest.takeWhile notSep
  if cap.isEmpty then none else some cap

/-- The alternative `youtu\.be\/` of the video-id regex, at one position. -/
def ytAlt (s : List Char) : Option (List Char) :=
  match dropLit "youtu.be/".toList s with
  | some rest => tryCapture rest
  | none => none

/-- One position of `/(?:v=|youtu\.be\/)([^&?/]+)/`: try `v=`, then the
`youtu.be/` alternative. -/
def ytMatchAt (s : List Char) : Option (List Char) :=
  match dropLit "v=".toList s with
  | some rest =>
    match tryCapture rest with
    | some cap => some cap
    | none => ytAlt s
  | none => ytAlt s

/-- `originalUrl.match(/(?:v=|youtu\.be\/)([^&?/]+)/)`, first capture. -/
def ytVideoId (url : String) : Option String :=
  (scanFirst ytMatchAt url.toList).map String.mk

/-- `extractYouTubeData(originalUrl)`: the record built from the oEmbed
payload, or the all-null-except-url record when the call fails.  Note the
image on the success path is `data.thumbnail_url` verbatim (no `|| null`)
when no video id can be parsed from the URL. -/
def extractYouTubeData (originalUrl : String) (o : YtOutcome) : ScrapedData :=
  match o with
  | .fail =>
    { title := .nullv, description := .nullv, image := .nullv, url := .str originalUrl
    , author := .nullv, publicationDate := .nullv, pages := .nullv }
  | .success data =>
    let maxResThumbnail : JsStr :=
      match ytVideoId originalUrl with
      | some videoId => .str ("https://i.ytimg.com/vi/" ++ videoId ++ "/maxresdefault.jpg")
      | none => jsOfOpt data.thumbnail_url
    { title := jsOrNull (jsOfOpt data.title)
    , description := .nullv
    , image := maxResThumbnail
    , url := .str originalUrl
    , author := jsOrNull (jsOfOpt data.author_name)
    , publicationDate := .nullv
    , pages := .nullv }

/-! ## Twitter/X extractor -/

/-- `tweet.author` of the fxtwitter payload. -/
structure FxAuthor where
  name : Option String
  screen_name : Option String
deriving DecidableEq, Repr

/-- One photo of `tweet.media.photos`. -/
structure FxPhoto where
  url : String
deriving DecidableEq, Repr

/-- One video of `tweet.media.videos`. -/
structure FxVideo where
  thumbnail_url : String
deriving DecidableEq, Repr

/-- `tweet.media` of the fxtwitter payload. -/
structure FxMedia where
  photos : Option (List FxPhoto)
  videos : Option (List FxVideo)
deriving DecidableEq, Repr

/-- The `tweet` object of the fxtwitter payload. -/
structure FxTweet where
  author : Option FxAuthor
  text : Option String
  media : Option FxMedia
deriving DecidableEq, Repr

/-- The fxtwitter JSON body: `fxData.tweet` may be absent. -/
structure FxPayload where
  tweet : Option FxTweet
deriving DecidableEq, Repr

/-- Outcome of the fxtwitter call: a thrown fetch/JSON error, or a response
with its `ok` flag and body. -/
inductive FxOutcome where
  | err : FxOutcome
  | resp : Bool → FxPayload → FxOutcome
deriving DecidableEq, Repr

/-- The Twitter oEmbed JSON body.  `blockquoteText` models the cheerio query
`$('blockquote p').text()` over `data.html || ''` (cheerio being external,
the query result on the embed fragment is part of the environment). -/
structure TwData where
  author_name : Option String
  url : Option String
  blockquoteText : String
deriving DecidableEq, Repr

/-- Outcome of the Twitter oEmbed call. -/
inductive TwOutcome where
  | err : TwOutcome
  | resp : Bool → TwData → TwOutcome
deriving DecidableEq, Repr

/-- Tail of `/(?:twitter\.com|x\.com)\/(\w+)\/status\/(\d+)/` after the host
alternative: the handle (`\w+`), the literal `/status/`, the id (`\d+`). -/
def twTail (rest : List Char) : Option (String × String) :=
  let user := rest.takeWhile isWordChar
  if user.isEmpty then none
  else
    match dropLit "/status/".toList (rest.drop user.length) with
    | some r2 =>
      let id := r2.takeWhile Char.isDigit
      if id.isEmpty then none else some (String.mk user, String.mk id)
    | none => none

/-- One position of the tweet-link regex: the `twitter.com/` alternative,
then the `x.com/` alternative. -/
def twMatchAt (s : List Char) : Option (String × String) :=
  match dropLit "twitter.com/".toList s with
  | some rest => twTail rest
  | none =>
    match dropLit "x.com/".toList s with
    | some rest => twTail rest
    | none => none

/-- `originalUrl.match(/(?:twitter\.com|x\.com)\/(\w+)\/status\/(\d+)/)`:
the (handle, id) captures of the first match. -/
def tweetMatch (originalUrl : String) : Option (String × String) :=
  scanFirst twMatchAt originalUrl.toList

/-- The final return of `extractTwitterData`: every field null except the
original URL. -/
def allNullRecord (originalUrl : String) : ScrapedData :=
  { title := .nullv, description := .nullv, image := .nullv, url := .str originalUrl
  , author := .nullv, publicationDate := .nullv, pages := .nullv }

/-- The record `extractTwitterData` derives from a fxtwitter `tweet`
object. -/
def fxTweetRecord (originalUrl : String) (tweet : FxTweet) : ScrapedData :=
  let image : JsStr :=
    match tweet.media with
    | some m =>
      match m.photos with
      | some (p :: _) => .str p.url
      | _ =>
        match m.videos with
        | some (v :: _) => .str v.thumbnail_url
        | _ => .nullv
    | none => .nullv
  let sn : Option String := tweet.author.bind FxAuthor.screen_name
  { title := jsOr (jsOfOpt (tweet.author.bind FxAuthor.name)) (jsOrNull (jsOfOpt sn))
  , description := jsOrNull (jsOfOpt tweet.text)
  , image := image
  , url := .str originalUrl
  , author := if optTruthy sn then .str ("@" ++ sn.getD "") else .nullv
  , publicationDate := .nullv
  , pages := .nullv }

/-- The oEmbed tier of `extractTwitterData` (the code after the fxtwitter
block), with the events already issued. -/
def twFallback (originalUrl : String) (oe : TwOutcome) (evs : List Ev) :
    ScrapedData × List Ev :=
  match oe with
  | .err => (allNullRecord originalUrl, evs ++ [Ev.twOembedCall])
  | .resp ok data =>
    if ok then
      let tweetText := jsTrim data.blockquoteText
      ( { title := jsOrNull (jsOfOpt data.author_name)
        , description := jsOrNull (.str tweetText)
        , image := .nullv
        , url := jsOr (jsOfOpt data.url) (.str originalUrl)
        , author := jsOrNull (jsOfOpt data.author_name)
        , publicationDate := .nullv
        , pages := .nullv }
      , evs ++ [Ev.twOembedCall] )
    else (allNullRecord originalUrl, evs ++ [Ev.twOembedCall])

/-- `extractTwitterData(originalUrl)`: tweet-link match, fxtwitter tier,
oEmbed tier, all-null fallback; paired with the calls issued. -/
def extractTwitterData (originalUrl : String) (fx : FxOutcome) (oe : TwOutcome) :
    ScrapedData × List Ev :=
  match tweetMatch originalUrl with
  | some _ =>
    match fx with
    | .err => twFallback originalUrl oe [Ev.fxCall]
    | .resp ok payload =>
      if ok then
        match payload.tweet with
        | some tweet => (fxTweetRecord originalUrl tweet, [Ev.fxCall])
        | none => twFallback originalUrl oe [Ev.fxCall]
      else twFallback originalUrl oe [Ev.fxCall]
  | none => twFallback originalUrl oe []

/-! ## Packt Free Learning extractor -/

/-- `replace(/^lit\s+/i, '')`: strip a case-insensitive literal prefix
followed by at least one whitespace character. -/
def stripLeadWS1 (lit s : String) : String :=
  match dropCI lit.toList s.toList with
  | some rest =>
    match rest with
    | c :: _ => if isJsSpace c then String.mk (rest.dropWhile isJsSpace) else s
    | [] => s
  | none => s

/-- `replace(/^lit\s*/i, '')`: strip a case-insensitive literal prefix and
any following whitespace. -/
def stripLeadWS0 (lit s : String) : String :=
  match dropCI lit.toList s.toList with
  | some rest => String.mk (rest.dropWhile isJsSpace)
  | none => s

/-- `titleRaw.replace(/^Free eBook\s*-\s*/i, '')`. -/
def stripFreeEbook (s : String) : String :=
  match dropCI "free ebook".toList s.toList with
  | some rest =>
    match rest.dropWhile isJsSpace with
    | '-' :: r2 => String.mk (r2.dropWhile isJsSpace)
    | _ => s
  | none => s

/-- `extractPacktData($, originalUrl)`. -/
def extractPacktData (d : Doc) (originalUrl : String) : ScrapedData :=
  let image : JsStr :=
    jsOr (jsOfOpt (d.attrFirst ".product-info__image img.product-image" "src"))
      (jsOrNull (jsOfOpt (d.attrFirst ".main-product img.product-image" "src")))
  let t1 := jsTrim (d.textFirst ".product-info__title")
  let t2 := jsTrim (d.textFirst ".main-product .product-info__title")
  let titleRaw : Option String :=
    if !(t1 == "") then some t1 else if !(t2 == "") then some t2 else none
  let title : JsStr :=
    match titleRaw with
    | some t => .str (stripFreeEbook t)
    | none => .nullv
  let a1 := jsTrim (d.textFirst ".product-info__author.free_learning__author")
  let authorText := if !(a1 == "") then a1
    else jsTrim (d.textFirst ".main-product .product-info__author")
  let authorStripped := jsTrim (stripLeadWS1 "by" authorText)
  let author : JsStr := if !(authorStripped == "") then .str authorStripped else .nullv
  let d1 := jsTrim (d.textFirst ".free_learning__product_description span")
  let d2 := jsTrim (d.textFirst ".main-product .product-info__description")
  let description : JsStr :=
    if !(d1 == "") then .str d1
    else if !(d2 == "") then .str d2
    else jsOrNull (jsOfOpt (d.attr "meta[name=\"description\"]" "content"))
  let pubDateRaw := jsTrim (d.textFirst ".free_learning__product_pages_date span")
  let pubStripped := jsTrim (stripLeadWS0 "publication date:" pubDateRaw)
  let publicationDate : JsStr := if !(pubStripped == "") then .str pubStripped else .nullv
  let pagesRaw := jsTrim (d.textFirst ".free_learning__product_pages span")
  let pagesStripped := jsTrim (stripLeadWS0 "pages:" pagesRaw)
  let pages : JsStr := if !(pagesStripped == "") then .str pagesStripped else .nullv
  { title := title
  , description := description
  , image := image
  , url := jsOr (jsOfOpt (d.attr "link[rel=\"canonical\"]" "href")) (.str originalUrl)
  , author := author
  , publicationDate := publicationDate
  , pages := pages }

/-! ## Amazon extractor -/

/-- Lazy capture `(.+?)` of a JS regex: consume at least one non-newline
character, stopping as soon as the rest of the input satisfies the
continuation of the pattern. -/
def lazyCapture (stop : List Char → Bool) : List Char → List Char → Option (List Char)
  | _, [] => none
  | acc, c :: rest =>
    if c == '\n' then none
    else if stop rest then some (acc ++ [c])
    else lazyCapture stop (acc ++ [c]) rest

/-- One position of `/Visit the (.+?) Store/i`. -/
def stepBrandEn (s : List Char) : Option (List Char) :=
  match dropCI "visit the ".toList s with
  | some rest => lazyCapture (fun r => ciStarts " store".toList r) [] rest
  | none => none

/-- One position of `/Visita la tienda de (.+)/i` (greedy `.` capture: the
rest of the line). -/
def stepBrandEs (s : List Char) : Option (List Char) :=
  match dropCI "visita la tienda de ".toList s with
  | some rest =>
    let cap := rest.takeWhile (fun c => !(c == '\n'))
    if cap.isEmpty then none else some cap
  | none => none

/-- One position of `/Visiter la boutique (.+)/i`. -/
def stepBrandFr (s : List Char) : Option (List Char) :=
  match dropCI "visiter la boutique ".toList s with
  | some rest =>
    let cap := rest.takeWhile (fun c => !(c == '\n'))
    if cap.isEmpty then none else some cap
  | none => none

/-- The continuation `[-\s]Store` of the German brand pattern. -/
def deStop (rest : List Char) : Bool :=
  match rest with
  | c :: rs => (c == '-' || isJsSpace c) && ciStarts "store".toList rs
  | [] => false

/-- One position of `/Besuche den (.+?)[-\s]Store/i`. -/
def stepBrandDe (s : List Char) : Option (List Char) :=
  match dropCI "besuche den ".toList s with
  | some rest => lazyCapture deStop [] rest
  | none => none

/-- `bylineText.match(/Visit the (.+?) Store/i)`, first capture. -/
def brandMatchEn (t : String) : Option String := (scanFirst stepBrandEn t.toList).map String.mk

/-- `bylineText.match(/Visita la tienda de (.+)/i)`, first capture. -/
def brandMatchEs (t : String) : Option String := (scanFirst stepBrandEs t.toList).map String.mk

/-- `bylineText.match(/Visiter la boutique (.+)/i)`, first capture. -/
def brandMatchFr (t : String) : Option String := (scanFirst stepBrandFr t.toList).map String.mk

/-- `bylineText.match(/Besuche den (.+?)[-\s]Store/i)`, first capture. -/
def brandMatchDe (t : String) : Option String := (scanFirst stepBrandDe t.toList).map String.mk

/-- `replace(/\s+Store$/i, '')`. -/
def stripStoreSuffixWS (s : String) : String :=
  match dropCI "erots".toList s.toList.reverse with
  | some rest =>
    match rest with
    | c :: _ =>
      if isJsSpace c then String.mk ((rest.dropWhile isJsSpace).reverse) else s
    | [] => s
  | none => s

/-- `replace(/[-\s]Store$/i, '')`. -/
def stripStoreSuffixDash (s : String) : String :=
  match dropCI "erots".toList s.toList.reverse with
  | some rest =>
    match rest with
    | c :: r2 => if c == '-' || isJsSpace c then String.mk r2.reverse else s
    | [] => s
  | none => s

/-- The cleanup chain on the byline link text (the last author fallback). -/
def cleanBrandLink (s : String) : String :=
  stripStoreSuffixDash (stripStoreSuffixWS
    (stripLeadWS1 "besuche den"
      (stripLeadWS1 "visiter la boutique"
        (stripLeadWS1 "visita la tienda de"
          (stripLeadWS1 "visit the" s)))))

/-- The author/brand extraction chain of `extractAmazonData`. -/
def amazonAuthor (d : Doc) : String :=
  let a1 := jsTrim (d.textFirst "#bylineInfo .author a")
  if !(a1 == "") then a1
  else
    let a2 := jsTrim (d.textFirst "#bylineInfo a.contributorNameID")
    if !(a2 == "") then a2
    else
      let a3 := jsTrim (d.textFirst "span.author a")
      if !(a3 == "") then a3
      else
        let bylineText := jsTrim (d.text "#bylineInfo")
        let brandMatch :=
          match brandMatchEn bylineText with
          | some b => some b
          | none =>
            match brandMatchEs bylineText with
            | some b => some b
            | none =>
              match brandMatchFr bylineText with
              | some b => some b
              | none => brandMatchDe bylineText
        match brandMatch with
        | some b => jsTrim b
        | none =>
          let linkText := cleanBrandLink (jsTrim (d.textFirst "#bylineInfo a"))
          if !(linkText == "") && linkText.length < 50 then linkText else ""

/-- `descSelectors` of `extractAmazonData`, in priority order. -/
def descSelectors : List String :=
  [ "#bookDescription_feature_div .a-expander-content"
  , "#bookDescription .a-expander-content"
  , "[data-a-expander-name=\"book_description_expander\"] .a-expander-content"
  , "#bookDescription_feature_div"
  , "#bookDescription" ]

/-- The selector loop over `descSelectors`: paragraph texts joined, else the
whole container text when longer than 50 characters. -/
def amazonDescLoop (d : Doc) : List String → String
  | [] => ""
  | sel :: rest =>
    if d.found sel then
      let paragraphs := (d.findPTexts sel).filterMap fun t0 =>
        let t := jsTrim t0
        if !(t == "") then some t else none
      if !paragraphs.isEmpty then joinWith " " paragraphs
      else
        let fullText := jsTrim (d.text sel)
        if !(fullText == "") && fullText.length > 50 then fullText
        else amazonDescLoop d rest
    else amazonDescLoop d rest

/-- The description of `extractAmazonData` before truncation: book
containers, then `#productDescription p`, then the first three feature
bullets (legal disclaimers excluded), then a meta description that is long
enough and not site boilerplate. -/
def amazonRawDescription (d : Doc) : String :=
  let fromBooks := amazonDescLoop d descSelectors
  if !(fromBooks == "") then fromBooks
  else
    let pd := jsTrim (d.text "#productDescription p")
    if !(pd == "") then pd
    else
      let bullets := (d.listTexts "#feature-bullets ul li span.a-list-item").filterMap fun t0 =>
        let t := jsTrim t0
        if !(t == "") && !(hasSub "LEGAL DISCLAIMER".toList t.toList) then some t else none
      if !bullets.isEmpty then joinWith " " (bullets.take 3)
      else
        let metaDesc := (d.attr "meta[name=\"description\"]" "content").getD ""
        if !(metaDesc == "") && !(hasSub "Amazon.es".toList metaDesc.toList) &&
            metaDesc.length > 50 then metaDesc
        else ""

/-- The 500-character truncation of `extractAmazonData`. -/
def amazonDescription (d : Doc) : String :=
  let description := amazonRawDescription d
  if description.length > 500 then jsSubstring description 497 ++ "..." else description

/-- The title chain of `extractAmazonData`. -/
def amazonTitle (d : Doc) : Option String :=
  let t1 := jsTrim (d.text "#productTitle")
  if !(t1 == "") then some t1
  else
    let t2 := jsTrim (d.text "#ebooksProductTitle")
    if !(t2 == "") then some t2
    else
      match d.attr "meta[name=\"title\"]" "content" with
      | some s =>
        let t := jsTrim (String.mk (s.toList.takeWhile (fun c => !(c == ':'))))
        if !(t == "") then some t else none
      | none => none

/-- One step of the maximum-area loop over the dynamic-image entries. -/
def pickStep (acc : Nat × Option String) (e : String × Nat × Nat) : Nat × Option String :=
  let size := e.2.1 * e.2.2
  if size > acc.1 then (size, some e.1) else acc

/-- The loop of `extractAmazonData` over the parsed dynamic-image JSON:
start at area 0, keep the first entry that strictly increases the area. -/
def pickLargest (entries : List (String × Nat × Nat)) : Option String :=
  (entries.foldl pickStep ((0 : Nat), (none : Option String))).2

/-- The selector of the Amazon product image element. -/
def amazonImgSel : String := "#landingImage, #imgBlkFront, #ebooksImgBlkFront"

/-- The dynamic-image part of the image extraction: parse
`data-a-dynamic-image`, pick the largest-area candidate; on a parse failure
or a missing attribute fall back to the `src` attribute. -/
def amazonDynImage (d : Doc) : JsStr :=
  let dynamicImageData := d.attrFirst amazonImgSel "data-a-dynamic-image"
  if optTruthy dynamicImageData then
    match d.dynJson (dynamicImageData.getD "") with
    | some imageObj =>
      if imageObj.length > 0 then
        match pickLargest imageObj with
        | some u => .str u
        | none => .nullv
      else .nullv
    | none => jsOrNull (jsOfOpt (d.attrFirst amazonImgSel "src"))
  else jsOrNull (jsOfOpt (d.attrFirst amazonImgSel "src"))

/-- The image of `extractAmazonData`: the dynamic-image result, else the
Open Graph image. -/
def amazonImage (d : Doc) : JsStr :=
  let image := amazonDynImage d
  if image.truthy then image
  else jsOrNull (jsOfOpt (d.attr "meta[property=\"og:image\"]" "content"))

/-- `extractAmazonData($, originalUrl)`. -/
def extractAmazonData (d : Doc) (originalUrl : String) : ScrapedData :=
  let author := amazonAuthor d
  let description := amazonDescription d
  let canonical :=
    match d.attr "link[rel=\"canonical\"]" "href" with
    | some c => if !(c == "") then c else originalUrl
    | none => originalUrl
  { title := optJs (amazonTitle d)
  , description := if !(description == "") then .str description else .nullv
  , image := amazonImage d
  , url := .str canonical
  , author := if !(author == "") then .str author else .nullv
  , publicationDate := .nullv
  , pages := .nullv }

/-! ## Microlink fallback client -/

/-- `data.image` / `data.logo` of the Microlink envelope: an object whose
`url` field may itself be absent. -/
structure MlImage where
  url : Option String
deriving DecidableEq, Repr

/-- `json.data` of the Microlink envelope. -/
structure MlData where
  title : Option String
  description : Option String
  image : Option MlImage
  logo : Option MlImage
  url : Option String
  author : Option String
  publisher : Option String
deriving DecidableEq, Repr

/-- The Microlink JSON body: `status` and an optional `data` object. -/
structure MlJson where
  status : String
  data : Option MlData
deriving DecidableEq, Repr

/-- Outcome of the Microlink call: a thrown fetch/JSON error, or a response
with its `ok` flag and body. -/
inductive MlOutcome where
  | err : MlOutcome
  | resp : Bool → MlJson → MlOutcome
deriving DecidableEq, Repr

/-- `extractWithMicrolink(targetUrl)`: `none` on any network failure,
non-ok status, non-success envelope or missing data. -/
def extractWithMicrolink (targetUrl : String) (o : MlOutcome) : Option ScrapedData :=
  match o with
  | .err => none
  | .resp ok json =>
    if !ok then none
    else if !(json.status == "success") then none
    else
      match json.data with
      | none => none
      | some data =>
        some
          { title := jsOrNull (jsOfOpt data.title)
          , description := jsOrNull (jsOfOpt data.description)
          , image := jsOr (jsOfOpt (data.image.bind MlImage.url))
              (jsOrNull (jsOfOpt (data.logo.bind MlImage.url)))
          , url := jsOr (jsOfOpt data.url) (.str targetUrl)
          , author := jsOr (jsOfOpt data.author) (jsOrNull (jsOfOpt data.publisher))
          , publicationDate := .nullv
          , pages := .nullv }

/-! ## Site classifiers

`new URL(url)` is a platform API: its outcome (hostname and pathname, or a
thrown error for a malformed URL) is an environment value.  The host and
path tests of `scraper.ts` are embedded over it. -/

/-- What `new URL(url)` yields when it does not throw. -/
structure UrlParts where
  hostname : String
  pathname : String
deriving DecidableEq, Repr

/-- `isYouTubeUrl`: hostname matches `/^(www\.)?(youtube\.com|youtu\.be)$/i`;
false when URL parsing throws. -/
def isYouTubeUrl (parsed : Option UrlParts) : Bool :=
  match parsed with
  | none => false
  | some u =>
    let h := lowerStr u.hostname
    h == "youtube.com" || h == "www.youtube.com" || h == "youtu.be" || h == "www.youtu.be"

/-- `isTwitterUrl`: hostname matches `/^(www\.)?(twitter\.com|x\.com)$/i`. -/
def isTwitterUrl (parsed : Option UrlParts) : Bool :=
  match parsed with
  | none => false
  | some u =>
    let h := lowerStr u.hostname
    h == "twitter.com" || h == "www.twitter.com" || h == "x.com" || h == "www.x.com"

/-- `isPacktFreeLearningUrl`: hostname matches `/^(www\.)?packtpub\.com$/i`
and the pathname contains `free-learning`. -/
def isPacktFreeLearningUrl (parsed : Option UrlParts) : Bool :=
  match parsed with
  | none => false
  | some u =>
    let h := lowerStr u.hostname
    (h == "packtpub.com" || h == "www.packtpub.com") &&
      hasSub "free-learning".toList u.pathname.toList

/-- The twelve country domains of `isAmazonUrl`. -/
def amazonTlds : List String :=
  ["com", "es", "co.uk", "de", "fr", "it", "ca", "com.mx", "com.br", "co.jp", "in", "com.au"]

/-- Case-sensitive suffix test on the lowered hostname. -/
def strEnds (suffix s : String) : Bool := litStarts suffix.toList.reverse s.toList.reverse

/-- `isAmazonUrl`: hostname matches `/^(www\.)?amazon\.TLD$/i` or ends in
`.amazon.TLD` for one of the twelve country domains. -/
def isAmazonUrl (parsed : Option UrlParts) : Bool :=
  match parsed with
  | none => false
  | some u =>
    let h := lowerStr u.hostname
    amazonTlds.any (fun t =>
      h == "amazon." ++ t || h == "www.amazon." ++ t || strEnds ("." ++ "amazon." ++ t) h)

/-! ## The orchestrator `scrapeUrl` -/

/-- The HTTP response of the primary fetch: `ok`, status, status text and
the parsed body. -/
structure FetchResp where
  ok : Bool
  status : Nat
  statusText : String
  doc : Doc

/-- The whole outside world one `scrapeUrl(targetUrl)` call can observe:
the outcome of `new URL`, each vendor API call, the primary fetch
(`none` = the fetch itself threw) and the Microlink call. -/
structure ScrapeEnv where
  targetUrl : String
  parsed : Option UrlParts
  yt : YtOutcome
  fx : FxOutcome
  twOe : TwOutcome
  fetched : Option FetchResp
  ml : MlOutcome

/-- A thrown failure of `scrapeUrl`: the propagated network error, or the
`Failed to fetch URL: status statusText` error of the unusable-content
path. -/
inductive ScrapeErr where
  | network : ScrapeErr
  | http : Nat → String → ScrapeErr
deriving DecidableEq, Repr

/-- The partial record returned on a non-success HTTP status when generic
extraction found a usable signal. -/
def partialRecord (d : Doc) (targetUrl : String) : ScrapedData :=
  { title := optJs (extractTitle d)
  , description := optJs (extractDescription d)
  , image := optJs (extractImage d)
  , url := .str (extractCanonicalUrl d targetUrl)
  , author := optJs (extractAuthor d)
  , publicationDate := .nullv
  , pages := .nullv }

/-- The record of the generic path on a success status: the long
description is preferred over the meta description. -/
def genericRecord (d : Doc) (targetUrl : String) : ScrapedData :=
  let metaDescription := extractDescription d
  let longDescription := extractLongDescription d metaDescription
  { title := optJs (extractTitle d)
  , description := jsOr (optJs longDescription) (optJs metaDescription)
  , image := optJs (extractImage d)
  , url := .str (extractCanonicalUrl d targetUrl)
  , author := optJs (extractAuthor d)
  , publicationDate := .nullv
  , pages := .nullv }

/-- The non-success branch of `scrapeUrl` after the primary fetch: generic
extraction from the returned HTML, the challenge test, the Microlink
fallback, the thrown HTTP failure. -/
def scrapeNotOk (env : ScrapeEnv) (resp : FetchResp) :
    Except ScrapeErr ScrapedData × List Ev :=
  let d := resp.doc
  let title := extractTitle d
  let description := extractDescription d
  let image := extractImage d
  let isChallengePage := optTruthy title && isChallengeTitle (title.getD "")
  if !isChallengePage && (optTruthy title || optTruthy description || optTruthy image) then
    (.ok (partialRecord d env.targetUrl), [Ev.fetchTarget])
  else
    match extractWithMicrolink env.targetUrl env.ml with
    | some microlinkData =>
      if microlinkData.title.truthy || microlinkData.description.truthy then
        (.ok microlinkData, [Ev.fetchTarget, Ev.microlinkCall])
      else (.error (.http resp.status resp.statusText), [Ev.fetchTarget, Ev.microlinkCall])
    | none => (.error (.http resp.status resp.statusText), [Ev.fetchTarget, Ev.microlinkCall])

/-- `scrapeUrl(targetUrl)`: YouTube and Twitter are routed before any
fetch; then the primary fetch, the non-success branch, and the Packt /
Amazon / generic routing on success.  Paired with the trace of outbound
calls. -/
def scrapeUrl (env : ScrapeEnv) : Except ScrapeErr ScrapedData × List Ev :=
  if isYouTubeUrl env.parsed then
    (.ok (extractYouTubeData env.targetUrl env.yt), [Ev.ytOembedCall])
  else if isTwitterUrl env.parsed then
    let p := extractTwitterData env.targetUrl env.fx env.twOe
    (.ok p.1, p.2)
  else
    match env.fetched with
    | none => (.error .network, [Ev.fetchTarget])
    | some resp =>
      if !resp.ok then scrapeNotOk env resp
      else if isPacktFreeLearningUrl env.parsed then
        (.ok (extractPacktData resp.doc env.targetUrl), [Ev.fetchTarget])
      else if isAmazonUrl env.parsed then
        (.ok (extractAmazonData resp.doc env.targetUrl), [Ev.fetchTarget])
      else (.ok (genericRecord resp.doc env.targetUrl), [Ev.fetchTarget])

/-! ## Derived notions used in the statements -/

/-- The URL the Microlink body reports, if the call produced a body. -/
def mlUrlOf (o : MlOutcome) : Option String :=
  match o with
  | .err => none
  | .resp _ j => j.data.bind MlData.url

/-- The URL the Twitter oEmbed body reports, if the call produced one. -/
def twDataUrlOf (oe : TwOutcome) : Option String :=
  match oe with
  | .err => none
  | .resp _ d => d.url

/-- A canonical-link or Open Graph URL the fetched document declares. -/
def docUrlSignal (d : Doc) (u : String) : Prop :=
  d.attr "link[rel=\"canonical\"]" "href" = some u ∨
    d.attr "meta[property=\"og:url\"]" "content" = some u

/-- `u` was discovered somewhere in the environment: declared by the fetched
document, or reported by the Microlink or Twitter oEmbed body. -/
def discoveredUrl (env : ScrapeEnv) (u : String) : Prop :=
  (∃ resp, env.fetched = some resp ∧ docUrlSignal resp.doc u) ∨
    mlUrlOf env.ml = some u ∨ twDataUrlOf env.twOe = some u

/-- The challenge test of the non-success branch, as a function of the
document. -/
def challengeFlag (d : Doc) : Bool :=
  optTruthy (extractTitle d) && isChallengeTitle ((extractTitle d).getD "")

/-- The usable-signal test of the non-success branch: some of title,
description, image is truthy. -/
def signalFlag (d : Doc) : Bool :=
  optTruthy (extractTitle d) || optTruthy (extractDescription d) ||
    optTruthy (extractImage d)

/-- The Microlink result yields no usable signal (no result at all, or a
record with falsy title and description). -/
def mlUnusable (env : ScrapeEnv) : Prop :=
  match extractWithMicrolink env.targetUrl env.ml with
  | some mr => (mr.title.truthy || mr.description.truthy) = false
  | none => True

/-- The fxtwitter tier yields no tweet object: thrown call, non-ok
response, or a body without `tweet`. -/
def fxNoTweet (fx : FxOutcome) : Prop :=
  fx = .err ∨ (∃ p, fx = .resp false p) ∨ (∃ p, fx = .resp true p ∧ p.tweet = none)

/-- The oEmbed tier fails: thrown call or non-ok response. -/
def twOeFails (oe : TwOutcome) : Prop :=
  oe = .err ∨ ∃ d, oe = .resp false d

/-- The maximum `width × height` over the dynamic-image entries. -/
def maxArea (entries : List (String × Nat × Nat)) : Nat :=
  entries.foldl (fun a e => max a (e.2.1 * e.2.2)) 0

/-! ## Concrete documents and environments for the tests -/

/-- C1 witness environment: a YouTube URL whose oEmbed call fails. -/
def envC1w : ScrapeEnv :=
  { targetUrl := "https://www.youtube.com/watch?v=abc"
  , parsed := some ⟨"www.youtube.com", "/watch"⟩
  , yt := .fail, fx := .err, twOe := .err, fetched := none, ml := .err }

/-- C2 failing environment: a YouTube URL without a parsable video id, with
an oEmbed success payload lacking `thumbnail_url`. -/
def envC2 : ScrapeEnv :=
  { targetUrl := "https://www.youtube.com/@somechannel"
  , parsed := some ⟨"www.youtube.com", "/@somechannel"⟩
  , yt := .success { title := some "Some Channel", author_name := some "Owner", thumbnail_url := none }
  , fx := .err, twOe := .err, fetched := none, ml := .err }

/-- C3 counterexample document: a whitespace-only `og:title` (the resolved
title is the non-null empty string) and nothing else. -/
def docC3 : Doc :=
  { emptyDoc with
    attr := fun sel name =>
      if sel == "meta[property=\"og:title\"]" && name == "content" then some " " else none }

/-- C3 counterexample response: HTTP 403 around `docC3`. -/
def respC3 : FetchResp := { ok := false, status := 403, statusText := "Forbidden", doc := docC3 }

/-- C3 counterexample environment (Microlink also fails). -/
def envC3 : ScrapeEnv :=
  { targetUrl := "https://blocked.example/page"
  , parsed := some ⟨"blocked.example", "/page"⟩
  , yt := .fail, fx := .err, twOe := .err, fetched := some respC3, ml := .err }

/-- C3 witness document: a real `og:title` behind a 403. -/
def docC3w : Doc :=
  { emptyDoc with
    attr := fun sel name =>
      if sel == "meta[property=\"og:title\"]" && name == "content" then
        some "Partial page title" else none }

/-- C3 witness response. -/
def respC3w : FetchResp := { ok := false, status := 403, statusText := "Forbidden", doc := docC3w }

/-- C3 witness environment. -/
def envC3w : ScrapeEnv :=
  { targetUrl := "https://blocked.example/story"
  , parsed := some ⟨"blocked.example", "/story"⟩
  , yt := .fail, fx := .err, twOe := .err, fetched := some respC3w, ml := .err }

/-- C4 counterexample attribute text: one candidate mapped to `[0,0]`. -/
def dynAttrC4 : String := "\x7b\"u\":[0,0]\x7d"

/-- C4 counterexample document: the dynamic-image JSON parses to a single
zero-area candidate, and an `og:image` is present. -/
def docC4 : Doc :=
  { emptyDoc with
    attrFirst := fun sel name =>
      if sel == amazonImgSel && name == "data-a-dynamic-image" then some dynAttrC4 else none
  , attr := fun sel name =>
      if sel == "meta[property=\"og:image\"]" && name == "content" then
        some "https://og.example/cover.png" else none
  , dynJson := fun s => if s == dynAttrC4 then some [("u", 0, 0)] else none }

/-- C4 witness attribute text: two candidates, 300×300 and 600×600. -/
def dynAttrC4w : String :=
  "\x7b\"https://img.example/300.jpg\":[300,300],\"https://img.example/600.jpg\":[600,600]\x7d"

/-- C4 witness entries, in `Object.keys` order. -/
def entriesC4w : List (String × Nat × Nat) :=
  [("https://img.example/300.jpg", 300, 300), ("https://img.example/600.jpg", 600, 600)]

/-- C4 witness document. -/
def docC4w : Doc :=
  { emptyDoc with
    attrFirst := fun sel name =>
      if sel == amazonImgSel && name == "data-a-dynamic-image" then some dynAttrC4w else none
  , dynJson := fun s => if s == dynAttrC4w then some entriesC4w else none }

/-- C5 witness lead text (61 characters, no surrounding whitespace). -/
def leadTextC5 : String := "This lead paragraph clearly exceeds the fifty character bar13"

/-- C5 witness document: only the `.lead` selector matches. -/
def docC5 : Doc :=
  { emptyDoc with
    found := fun sel => sel == ".lead"
  , textFirst := fun sel => if sel == ".lead" then leadTextC5 else "" }

/-- C6 counterexample description: 501 characters. -/
def bigDesc : String := String.mk (List.replicate 501 'a')

/-- C6 counterexample document: a 501-character `og:description` on the
generic path. -/
def docC6 : Doc :=
  { emptyDoc with
    attr := fun sel name =>
      if sel == "meta[property=\"og:description\"]" && name == "content" then
        some bigDesc else none }

/-- C6 counterexample response: a success status. -/
def respC6 : FetchResp := { ok := true, status := 200, statusText := "OK", doc := docC6 }

/-- C6 counterexample environment: a plain generic site. -/
def envC6 : ScrapeEnv :=
  { targetUrl := "https://example.com/article"
  , parsed := some ⟨"example.com", "/article"⟩
  , yt := .fail, fx := .err, twOe := .err, fetched := some respC6, ml := .err }

/-- C6 witness book description: 600 characters. -/
def bigBookDesc : String := String.mk (List.replicate 600 'b')

/-- C6 witness document: an Amazon book-description container holding one
600-character paragraph. -/
def docC6w : Doc :=
  { emptyDoc with
    found := fun sel => sel == "#bookDescription_feature_div .a-expander-content"
  , findPTexts := fun sel =>
      if sel == "#bookDescription_feature_div .a-expander-content" then [bigBookDesc] else [] }

/-- C7 witness fxtwitter tweet object. -/
def tweetC7 : FxTweet :=
  { author := some { name := some "Some User", screen_name := some "someuser" }
  , text := some "Hello world"
  , media := none }

/-- C7 witness fxtwitter payload. -/
def payloadC7 : FxPayload := { tweet := some tweetC7 }

/-- C8 counterexample oEmbed outcome: a successful oEmbed answer for a
non-post URL. -/
def oeC8 : TwOutcome :=
  .resp true { author_name := some "Some User", url := none, blockquoteText := "Hello world" }

/-- C10 witness document: a challenge-titled page served with HTTP 200. -/
def docC10 : Doc :=
  { emptyDoc with
    attr := fun sel name =>
      if sel == "meta[property=\"og:title\"]" && name == "content" then
        some "Just a moment..." else none }

/-- C10 witness response: HTTP 200 around the challenge page. -/
def respC10 : FetchResp := { ok := true, status := 200, statusText := "OK", doc := docC10 }

/-- C10 witness environment: a generic site serving a challenge interstitial
with a success status. -/
def envC10 : ScrapeEnv :=
  { targetUrl := "https://site.example/a"
  , parsed := some ⟨"site.example", "/a"⟩
  , yt := .fail, fx := .err, twOe := .err, fetched := some respC10, ml := .err }

set_option maxRecDepth 100000

/-! ## Helper lemmas -/

/-- Case-insensitive head match, characterised through `toLower`. -/
theorem ciStarts_iff : ∀ (p s : List Char),
    ciStarts p s = true ↔ ∃ rest, s.map Char.toLower = p.map Char.toLower ++ rest := by
  intro p
  induction p with
  | nil =>
    intro s
    simp [ciStarts, dropCI]
  | cons a ps ih =>
    intro s
    cases s with
    | nil =>
      simp [ciStarts, dropCI]
    | cons c cs =>
      by_cases h : a.toLower = c.toLower
      · have hb : (a.toLower == c.toLower) = true := by simp [h]
        have hred : ciStarts (a :: ps) (c :: cs) = ciStarts ps cs := by
          simp [ciStarts, dropCI, hb]
        rw [hred, ih cs]
        simp only [List.map_cons, List.cons_append, List.cons.injEq]
        constructor
        · rintro ⟨rest, hr⟩
          exact ⟨rest, h.symm, hr⟩
        · rintro ⟨rest, _, hr⟩
          exact ⟨rest, hr⟩
      · have hb : (a.toLower == c.toLower) = false := by
          simp only [beq_eq_false_iff_ne, ne_eq]
          exact h
        have hred : ciStarts (a :: ps) (c :: cs) = false := by
          simp [ciStarts, dropCI, hb]
        rw [hred]
        constructor
        · intro hF
          exact absurd hF (by decide)
        · rintro ⟨rest, hr⟩
          simp only [List.map_cons, List.cons_append, List.cons.injEq] at hr
          exact absurd hr.1.symm h

/-- The acceptance test of `leadLoop` holds of everything it returns. -/
theorem leadLoop_spec (d : Doc) (md : Option String) :
    ∀ (sels : List String) (t : String), leadLoop d md sels = some t →
      50 < t.length ∧ ∀ m, md = some m → m.length < t.length := by
  intro sels
  induction sels with
  | nil =>
    intro t h
    simp [leadLoop] at h
  | cons sel rest ih =>
    intro t h
    simp only [leadLoop] at h
    split at h
    · split at h
      · next hc =>
        cases h
        simp only [Bool.and_eq_true, Bool.or_eq_true, decide_eq_true_eq,
          Bool.not_eq_true'] at hc
        refine ⟨hc.1, ?_⟩
        intro m hm
        rcases hc.2 with hfalsy | hgt
        · have hm0 : m = "" := by
            rw [hm] at hfalsy
            simpa [optTruthy] using hfalsy
          subst hm0
          have : (0 : Nat) < 50 := by decide
          have hlen : ("" : String).length = 0 := by decide
          rw [hlen]
          omega
        · rw [hm] at hgt
          simpa using hgt
      · exact ih t h
    · exact ih t h

/-- C9: challenge-page detection classifies a title as a challenge exactly
when one of the five phrases is a case-insensitive prefix of the title; in
particular the prefix match (not exact equality) classifies
"Just a moment... | Example Site" as a challenge. -/
theorem challenge_detection_spec :
    ∀ t : String,
      (isChallengeTitle t = true ↔
        ∃ p ∈ challengePhrases, ∃ rest,
          t.toList.map Char.toLower = p.toList.map Char.toLower ++ rest) ∧
      isChallengeTitle "Just a moment... | Example Site" = true ∧
      ¬ ("Just a moment... | Example Site" = "just a moment") := by
  intro t
  refine ⟨?_, by decide, by decide⟩
  simp only [isChallengeTitle, List.any_eq_true]
  exact exists_congr fun p => and_congr_right fun _ => ciStarts_iff p.toList t.toList

/-- C5: the lead-paragraph heuristic returns a candidate only when its
length exceeds 50 and strictly exceeds the length of any existing meta
description. -/
theorem extractLongDescription_policy (d : Doc) (md : Option String) (t : String)
    (h : extractLongDescription d md = some t) :
    50 < t.length ∧ ∀ m, md = some m → m.length < t.length :=
  leadLoop_spec d md LEAD_SELECTORS t h

/-- C5 witness: a 61-character lead paragraph with no meta description is
returned by the heuristic and satisfies the policy. -/
theorem extractLongDescription_policy_witness :
    50 < leadTextC5.length ∧
      ∀ m, (none : Option String) = some m → m.length < leadTextC5.length :=
  extractLongDescription_policy docC5 none leadTextC5 (by rfl)

/-- C2: evaluation at the failing input.  For a YouTube URL without a
parsable video id whose oEmbed call succeeds without a `thumbnail_url`,
the returned record's image is `undefined`, not a string and not null —
against the declared `ScrapedData` contract (`string | null` on every
field) and the spec's explicit-null promise. -/
theorem youtube_image_undefined_bug :
    (scrapeUrl envC2).1 =
      Except.ok
        { title := JsStr.str "Some Channel", description := JsStr.nullv, image := JsStr.undef
        , url := JsStr.str "https://www.youtube.com/@somechannel", author := JsStr.str "Owner"
        , publicationDate := JsStr.nullv, pages := JsStr.nullv } ∧
    ytVideoId "https://www.youtube.com/@somechannel" = none ∧
    JsStr.undef ≠ JsStr.nullv ∧ ∀ s, JsStr.undef ≠ JsStr.str s := by
  refine ⟨by rfl, by decide, by decide, ?_⟩
  intro s hs
  cases hs

/-- C6 counterexample: on the generic path a 501-character Open Graph
description is returned untruncated — so "on every extraction path" fails;
only the Amazon extractor truncates. -/
theorem generic_description_untruncated_cex :
    (scrapeUrl envC6).1 = Except.ok (genericRecord docC6 "https://example.com/article") ∧
    (genericRecord docC6 "https://example.com/article").description = JsStr.str bigDesc ∧
    500 < bigDesc.length := ⟨by rfl, by decide, by decide⟩

/-- C6 (amended): on the Amazon path, a description longer than 500
characters is cut to its first 497 characters plus the 3-character
ellipsis, total length 500. -/
theorem amazon_truncation (d : Doc) (orig : String)
    (h : 500 < (amazonRawDescription d).length) :
    (extractAmazonData d orig).description =
      JsStr.str (jsSubstring (amazonRawDescription d) 497 ++ "...") ∧
    (jsSubstring (amazonRawDescription d) 497 ++ "...").length = 500 := by
  have hlen : (jsSubstring (amazonRawDescription d) 497 ++ "...").length = 500 := by
    have h1 : (jsSubstring (amazonRawDescription d) 497).length = 497 := by
      have hmk : (jsSubstring (amazonRawDescription d) 497).length
          = ((amazonRawDescription d).toList.take 497).length := rfl
      rw [hmk, List.length_take]
      have hL : (amazonRawDescription d).toList.length = (amazonRawDescription d).length := rfl
      rw [Nat.min_def]
      split <;> omega
    have happ : (jsSubstring (amazonRawDescription d) 497 ++ "...").length
        = (jsSubstring (amazonRawDescription d) 497).length + ("..." : String).length := by
      cases hs : jsSubstring (amazonRawDescription d) 497 with
      | mk l =>
        show (l ++ ("..." : String).toList).length = l.length + _
        rw [List.length_append]
        rfl
    rw [happ, h1]
    decide
  have htrunc : amazonDescription d = jsSubstring (amazonRawDescription d) 497 ++ "..." := by
    simp only [amazonDescription]
    rw [if_pos h]
  have hne : (amazonDescription d == "") = false := by
    rw [htrunc]
    apply beq_eq_false_iff_ne.mpr
    intro h0
    rw [h0] at hlen
    exact absurd hlen (by decide)
  refine ⟨?_, hlen⟩
  simp only [extractAmazonData, hne, Bool.not_false, if_true]
  rw [htrunc]

/-- C6 (amended) witness: a 600-character Amazon book description is
truncated to 500 with the ellipsis marker. -/
theorem amazon_truncation_witness :
    (extractAmazonData docC6w "https://www.amazon.es/dp/BOOK").description =
      JsStr.str (jsSubstring (amazonRawDescription docC6w) 497 ++ "...") ∧
    (jsSubstring (amazonRawDescription docC6w) 497 ++ "...").length = 500 :=
  amazon_truncation docC6w "https://www.amazon.es/dp/BOOK" (by decide)

/-- The first component of the maximum-area fold is the running maximum. -/
theorem pick_fst : ∀ (es : List (String × Nat × Nat)) (m : Nat) (io : Option String),
    (es.foldl pickStep (m, io)).1 = es.foldl (fun a e => max a (e.2.1 * e.2.2)) m := by
  intro es
  induction es with
  | nil => intro m io; rfl
  | cons e es ih =>
    intro m io
    simp only [List.foldl_cons]
    by_cases hgt : e.2.1 * e.2.2 > m
    · rw [show pickStep (m, io) e = (e.2.1 * e.2.2, some e.1) from by simp [pickStep, hgt]]
      rw [ih]
      congr 1
      exact (Nat.max_eq_right (Nat.le_of_lt hgt)).symm
    · rw [show pickStep (m, io) e = (m, io) from by simp [pickStep, hgt]]
      rw [ih]
      congr 1
      exact (Nat.max_eq_left (Nat.le_of_not_lt hgt)).symm

/-- The fold never decreases its best area. -/
theorem pick_le : ∀ (es : List (String × Nat × Nat)) (m : Nat) (io : Option String),
    m ≤ (es.foldl pickStep (m, io)).1 := by
  intro es
  induction es with
  | nil => intro m io; exact Nat.le_refl m
  | cons e es ih =>
    intro m io
    simp only [List.foldl_cons]
    by_cases hgt : e.2.1 * e.2.2 > m
    · rw [show pickStep (m, io) e = (e.2.1 * e.2.2, some e.1) from by simp [pickStep, hgt]]
      exact Nat.le_trans (Nat.le_of_lt hgt) (ih _ _)
    · rw [show pickStep (m, io) e = (m, io) from by simp [pickStep, hgt]]
      exact ih _ _

/-- When the fold never improves on its start, it returns the start. -/
theorem pick_stay : ∀ (es : List (String × Nat × Nat)) (m : Nat) (io : Option String),
    (es.foldl pickStep (m, io)).1 = m → es.foldl pickStep (m, io) = (m, io) := by
  intro es
  induction es with
  | nil => intro m io _; rfl
  | cons e es ih =>
    intro m io h
    simp only [List.foldl_cons] at h ⊢
    by_cases hgt : e.2.1 * e.2.2 > m
    · rw [show pickStep (m, io) e = (e.2.1 * e.2.2, some e.1) from by simp [pickStep, hgt]] at h
      have hle := pick_le es (e.2.1 * e.2.2) (some e.1)
      exfalso
      omega
    · rw [show pickStep (m, io) e = (m, io) from by simp [pickStep, hgt]] at h ⊢
      exact ih _ _ h

/-- When the fold strictly improves on its start, it ends on some entry of
the list whose area is the final best. -/
theorem pick_mem : ∀ (es : List (String × Nat × Nat)) (m : Nat) (io : Option String),
    m < (es.foldl pickStep (m, io)).1 →
    ∃ u w hh, (es.foldl pickStep (m, io)).2 = some u ∧ (u, w, hh) ∈ es ∧
      w * hh = (es.foldl pickStep (m, io)).1 := by
  intro es
  induction es with
  | nil => intro m io h; exact absurd h (Nat.lt_irrefl m)
  | cons e es ih =>
    intro m io h
    simp only [List.foldl_cons] at h ⊢
    by_cases hgt : e.2.1 * e.2.2 > m
    · rw [show pickStep (m, io) e = (e.2.1 * e.2.2, some e.1) from by simp [pickStep, hgt]] at h ⊢
      by_cases h2 : e.2.1 * e.2.2 < (es.foldl pickStep (e.2.1 * e.2.2, some e.1)).1
      · obtain ⟨u, w, hh, h3, h4, h5⟩ := ih _ _ h2
        exact ⟨u, w, hh, h3, List.mem_cons_of_mem e h4, h5⟩
      · have hle := pick_le es (e.2.1 * e.2.2) (some e.1)
        have heq : (es.foldl pickStep (e.2.1 * e.2.2, some e.1)).1 = e.2.1 * e.2.2 := by omega
        rw [pick_stay es _ _ heq]
        exact ⟨e.1, e.2.1, e.2.2, rfl, List.mem_cons_self e es, rfl⟩
    · rw [show pickStep (m, io) e = (m, io) from by simp [pickStep, hgt]] at h ⊢
      obtain ⟨u, w, hh, h3, h4, h5⟩ := ih _ _ h
      exact ⟨u, w, hh, h3, List.mem_cons_of_mem e h4, h5⟩

/-- C4 (amended): when the dynamic-image attribute parses to entries at
least one of which has positive area, the loop picks a candidate achieving
the maximum `width × height`, and the extracted record's image is that
candidate whenever its URL is non-empty (a zero maximum area instead falls
through to the `src` / Open Graph fallbacks). -/
theorem amazon_dynimage_max (d : Doc) (orig s : String) (entries : List (String × Nat × Nat))
    (h1 : d.attrFirst amazonImgSel "data-a-dynamic-image" = some s)
    (h2 : ¬ s = "")
    (h3 : d.dynJson s = some entries)
    (h4 : 0 < maxArea entries) :
    ∃ u w hh, pickLargest entries = some u ∧ (u, w, hh) ∈ entries ∧
      w * hh = maxArea entries ∧
      (¬ u = "" → (extractAmazonData d orig).image = JsStr.str u) := by
  have hfold : 0 < (entries.foldl pickStep (0, none)).1 := by
    rw [pick_fst]
    exact h4
  obtain ⟨u, w, hh, hu, hmem, harea⟩ := pick_mem entries 0 none hfold
  refine ⟨u, w, hh, hu, hmem, ?_, ?_⟩
  · rw [harea]
    exact pick_fst entries 0 none
  · intro hune
    have hsbeq : (s == "") = false := beq_eq_false_iff_ne.mpr h2
    have hpos : 0 < entries.length := List.length_pos.mpr (List.ne_nil_of_mem hmem)
    have hdyn : amazonDynImage d = JsStr.str u := by
      simp only [amazonDynImage, h1, optTruthy, hsbeq, Bool.not_false, if_true,
        Option.getD_some, h3]
      rw [if_pos hpos]
      have hpl : pickLargest entries = some u := hu
      show (match pickLargest entries with
        | some u => JsStr.str u
        | none => JsStr.nullv) = JsStr.str u
      rw [hpl]
    have hubeq : (u == "") = false := beq_eq_false_iff_ne.mpr hune
    have himg : amazonImage d = JsStr.str u := by
      simp only [amazonImage, hdyn, JsStr.truthy, hubeq, Bool.not_false, if_true]
    show amazonImage d = JsStr.str u
    exact himg

/-- C4 counterexample: with a single `[0,0]` candidate the attribute parses
with one entry, yet the selected image is the Open Graph fallback, not that
candidate. -/
theorem amazon_dynimage_zero_area_cex :
    docC4.dynJson dynAttrC4 = some [("u", 0, 0)] ∧
    (extractAmazonData docC4 "https://www.amazon.es/dp/XYZ").image =
      JsStr.str "https://og.example/cover.png" ∧
    ¬ ("https://og.example/cover.png" = "u") := ⟨by rfl, by decide, by decide⟩

/-- C4 (amended) witness: with candidates at 300×300 and 600×600 the
600×600 URL is picked and becomes the record's image. -/
theorem amazon_dynimage_max_witness :
    ∃ u w hh, pickLargest entriesC4w = some u ∧ (u, w, hh) ∈ entriesC4w ∧
      w * hh = maxArea entriesC4w ∧
      (¬ u = "" →
        (extractAmazonData docC4w "https://www.amazon.es/dp/XYZ").image = JsStr.str u) :=
  amazon_dynimage_max docC4w "https://www.amazon.es/dp/XYZ" dynAttrC4w entriesC4w
    rfl (by decide) rfl (by decide)

/-- The oEmbed tier always records its network call at the end of the
trace. -/
theorem twFallback_trace (u : String) (oe : TwOutcome) (evs : List Ev) :
    (twFallback u oe evs).2 = evs ++ [Ev.twOembedCall] := by
  cases oe with
  | err => rfl
  | resp ok data => cases ok <;> rfl

/-- When the oEmbed tier fails, it returns the all-null record. -/
theorem twFallback_fail (u : String) (oe : TwOutcome) (evs : List Ev)
    (h : twOeFails oe) : (twFallback u oe evs).1 = allNullRecord u := by
  rcases h with h | ⟨dd, h⟩
  · subst h; rfl
  · subst h; rfl

/-- C7: when the URL matches the post-link pattern and the fxtwitter call
succeeds with a tweet object, the record is derived from that object and
only the fxtwitter call is issued; the oEmbed endpoint is called exactly
when the URL does not match or the primary tier yields no tweet. -/
theorem twitter_primary_no_oembed (u : String) (fx : FxOutcome) (oe : TwOutcome) :
    (∀ usr tid p t, tweetMatch u = some (usr, tid) → fx = FxOutcome.resp true p →
        p.tweet = some t →
        extractTwitterData u fx oe = (fxTweetRecord u t, [Ev.fxCall])) ∧
    (Ev.twOembedCall ∈ (extractTwitterData u fx oe).2 ↔
      (tweetMatch u = none ∨ fxNoTweet fx)) := by
  constructor
  · intro usr tid p t hm hfx ht
    subst hfx
    simp only [extractTwitterData, hm, ht]
    rw [if_pos trivial]
  · cases hm : tweetMatch u with
    | none =>
      simp only [extractTwitterData, hm]
      rw [twFallback_trace]
      simp
    | some pr =>
      cases fx with
      | err =>
        simp only [extractTwitterData, hm]
        rw [twFallback_trace]
        simp [fxNoTweet]
      | resp ok p =>
        cases ok with
        | false =>
          simp only [extractTwitterData, hm]
          rw [if_neg (by decide)]
          rw [twFallback_trace]
          simp only [List.cons_append, List.nil_append, List.mem_cons]
          constructor
          · intro _
            exact Or.inr (Or.inr (Or.inl ⟨p, rfl⟩))
          · intro _
            exact Or.inr (Or.inl trivial)
        | true =>
          cases ht : p.tweet with
          | none =>
            simp only [extractTwitterData, hm, ht]
            rw [if_pos trivial]
            rw [twFallback_trace]
            simp only [List.cons_append, List.nil_append, List.mem_cons]
            constructor
            · intro _
              exact Or.inr (Or.inr (Or.inr ⟨p, rfl, ht⟩))
            · intro _
              exact Or.inr (Or.inl trivial)
          | some t =>
            simp only [extractTwitterData, hm, ht]
            rw [if_pos trivial]
            constructor
            · intro hmem
              simp at hmem
            · rintro (hno | hE | ⟨q, hq⟩ | ⟨q, hq, hqt⟩)
              · cases hno
              · cases hE
              · cases hq
              · injection hq with hq1 hq2
                rw [← hq2] at hqt
                rw [ht] at hqt
                cases hqt

/-- C7 witness: at a concrete post URL with a successful fxtwitter tweet,
the record comes from the tweet and only the fxtwitter call is issued. -/
theorem twitter_primary_no_oembed_witness :
    extractTwitterData "https://x.com/someuser/status/12345"
        (FxOutcome.resp true payloadC7) TwOutcome.err =
      (fxTweetRecord "https://x.com/someuser/status/12345" tweetC7, [Ev.fxCall]) :=
  (twitter_primary_no_oembed "https://x.com/someuser/status/12345"
      (FxOutcome.resp true payloadC7) TwOutcome.err).1
    "someuser" "12345" payloadC7 tweetC7 (by decide) rfl rfl

/-- C8 (amended): when the oEmbed tier fails and additionally the URL does
not match the post-link pattern or the fxtwitter tier yields no tweet, the
record has every field null except `url`, which is the original URL. -/
theorem twitter_both_tiers_fail (u : String) (fx : FxOutcome) (oe : TwOutcome)
    (h1 : tweetMatch u = none ∨ fxNoTweet fx) (h2 : twOeFails oe) :
    (extractTwitterData u fx oe).1 = allNullRecord u := by
  cases hm : tweetMatch u with
  | none =>
    simp only [extractTwitterData, hm]
    rw [twFallback_fail u oe _ h2]
  | some pr =>
    rcases h1 with hnone | hfx
    · rw [hm] at hnone
      cases hnone
    · rcases hfx with hE | ⟨p, hF⟩ | ⟨p, hT, ht⟩
      · subst hE
        simp only [extractTwitterData, hm]
        rw [twFallback_fail u oe _ h2]
      · subst hF
        simp only [extractTwitterData, hm]
        rw [if_neg (by decide)]
        rw [twFallback_fail u oe _ h2]
      · subst hT
        simp only [extractTwitterData, hm, ht]
        rw [if_pos trivial]
        rw [twFallback_fail u oe _ h2]

/-- C8 counterexample: for a URL that does not match the post-link pattern
but whose oEmbed call succeeds, the record is not all-null — its title and
description come from the oEmbed body. -/
theorem twitter_nomatch_oembed_success_cex :
    tweetMatch "https://x.com/someuser" = none ∧
    (extractTwitterData "https://x.com/someuser" FxOutcome.err oeC8).1.title =
      JsStr.str "Some User" ∧
    (extractTwitterData "https://x.com/someuser" FxOutcome.err oeC8).1.description =
      JsStr.str "Hello world" ∧
    ¬ (JsStr.str "Some User" = JsStr.nullv) :=
  ⟨by decide, by decide, by decide, by decide⟩

/-- C8 (amended) witness: a matching URL whose fxtwitter body has no tweet
and whose oEmbed call throws yields the all-null-except-url record. -/
theorem twitter_both_tiers_fail_witness :
    (extractTwitterData "https://x.com/someuser/status/12345"
        (FxOutcome.resp true { tweet := none }) TwOutcome.err).1 =
      allNullRecord "https://x.com/someuser/status/12345" :=
  twitter_both_tiers_fail "https://x.com/someuser/status/12345"
    (FxOutcome.resp true { tweet := none }) TwOutcome.err
    (Or.inr (Or.inr (Or.inr ⟨{ tweet := none }, rfl, rfl⟩))) (Or.inl rfl)

/-- C3 (amended): on a non-success HTTP status — when generic extraction
yields a truthy (non-empty) signal and no challenge is detected, the
partial record is returned and Microlink is not called; otherwise Microlink
is called, its record is returned exactly when it has a truthy title or
description, and otherwise the call throws the error carrying the original
HTTP status and reason. -/
theorem scrape_notok_policy (env : ScrapeEnv) (resp : FetchResp)
    (hyt : isYouTubeUrl env.parsed = false) (htw : isTwitterUrl env.parsed = false)
    (hf : env.fetched = some resp) (hok : resp.ok = false) :
    (challengeFlag resp.doc = false ∧ signalFlag resp.doc = true →
      scrapeUrl env = (Except.ok (partialRecord resp.doc env.targetUrl), [Ev.fetchTarget])) ∧
    (challengeFlag resp.doc = true ∨ signalFlag resp.doc = false →
      Ev.microlinkCall ∈ (scrapeUrl env).2 ∧
      (∀ mr, extractWithMicrolink env.targetUrl env.ml = some mr →
        (mr.title.truthy || mr.description.truthy) = true →
        (scrapeUrl env).1 = Except.ok mr) ∧
      (mlUnusable env →
        (scrapeUrl env).1 = Except.error (ScrapeErr.http resp.status resp.statusText))) := by
  have hroute : scrapeUrl env = scrapeNotOk env resp := by
    simp only [scrapeUrl, hyt, htw, hf, hok]
    rfl
  constructor
  · rintro ⟨hc, hs⟩
    have hc' : (optTruthy (extractTitle resp.doc) &&
        isChallengeTitle ((extractTitle resp.doc).getD "")) = false := hc
    have hs' : (optTruthy (extractTitle resp.doc) || optTruthy (extractDescription resp.doc) ||
        optTruthy (extractImage resp.doc)) = true := hs
    have hcond : (!(optTruthy (extractTitle resp.doc) &&
        isChallengeTitle ((extractTitle resp.doc).getD "")) &&
        (optTruthy (extractTitle resp.doc) || optTruthy (extractDescription resp.doc) ||
          optTruthy (extractImage resp.doc))) = true := by
      rw [hc', hs']
      rfl
    rw [hroute]
    simp only [scrapeNotOk]
    rw [if_pos hcond]
  · intro h2
    have hcond : (!(optTruthy (extractTitle resp.doc) &&
        isChallengeTitle ((extractTitle resp.doc).getD "")) &&
        (optTruthy (extractTitle resp.doc) || optTruthy (extractDescription resp.doc) ||
          optTruthy (extractImage resp.doc))) = false := by
      rcases h2 with hc | hs
      · have hc' : (optTruthy (extractTitle resp.doc) &&
            isChallengeTitle ((extractTitle resp.doc).getD "")) = true := hc
        rw [hc']
        rfl
      · have hs' : (optTruthy (extractTitle resp.doc) ||
            optTruthy (extractDescription resp.doc) ||
            optTruthy (extractImage resp.doc)) = false := hs
        rw [hs']
        simp
    rw [hroute]
    simp only [scrapeNotOk]
    rw [if_neg (fun hx => by rw [hcond] at hx; exact absurd hx (by decide))]
    refine ⟨?_, ?_, ?_⟩
    · cases hml : extractWithMicrolink env.targetUrl env.ml with
      | none => simp only [hml]; simp
      | some mr =>
        simp only [hml]
        by_cases htd : (mr.title.truthy || mr.description.truthy) = true
        · rw [if_pos htd]; simp
        · rw [if_neg htd]; simp
    · intro mr hmr ht
      simp only [hmr]
      rw [if_pos ht]
    · intro hun
      cases hml : extractWithMicrolink env.targetUrl env.ml with
      | none => simp only [hml]
      | some mr =>
        simp only [mlUnusable, hml] at hun
        simp only [hml]
        rw [if_neg (by simp [hun])]

/-- C3 (amended) witness: a 403 body with a non-empty Open Graph title is
returned as a partial record and Microlink is not invoked. -/
theorem scrape_notok_policy_witness :
    scrapeUrl envC3w =
      (Except.ok (partialRecord docC3w "https://blocked.example/story"), [Ev.fetchTarget]) :=
  (scrape_notok_policy envC3w respC3w rfl rfl rfl rfl).1 ⟨by decide, by decide⟩

/-- C3 counterexample: a 403 body whose Open Graph title is whitespace-only
resolves to the non-null title `""` and is not a challenge, yet the partial
record is not returned — Microlink is invoked and, failing too, the call
throws.  "At least one non-null value" is therefore wrong: the test is
truthiness (non-empty), not non-null. -/
theorem scrape_notok_nonnull_cex :
    extractTitle docC3 = some "" ∧
    isChallengeTitle "" = false ∧
    (scrapeUrl envC3).1 = Except.error (ScrapeErr.http 403 "Forbidden") ∧
    Ev.microlinkCall ∈ (scrapeUrl envC3).2 :=
  ⟨by decide, by decide, by rfl, by decide⟩

/-- C10: on a success HTTP status the trace is the single primary fetch —
Microlink is never called, the challenge check is skipped — and the result
is the ordinary routed record (Packt, Amazon or generic), whatever the
document contains. -/
theorem success_no_fallback (env : ScrapeEnv) (resp : FetchResp)
    (hyt : isYouTubeUrl env.parsed = false) (htw : isTwitterUrl env.parsed = false)
    (hf : env.fetched = some resp) (hok : resp.ok = true) :
    (scrapeUrl env).2 = [Ev.fetchTarget] ∧
    Ev.microlinkCall ∉ (scrapeUrl env).2 ∧
    (scrapeUrl env).1 = Except.ok
      (if isPacktFreeLearningUrl env.parsed then extractPacktData resp.doc env.targetUrl
       else if isAmazonUrl env.parsed then extractAmazonData resp.doc env.targetUrl
       else genericRecord resp.doc env.targetUrl) := by
  have hred : scrapeUrl env =
      (Except.ok (if isPacktFreeLearningUrl env.parsed then extractPacktData resp.doc env.targetUrl
        else if isAmazonUrl env.parsed then extractAmazonData resp.doc env.targetUrl
        else genericRecord resp.doc env.targetUrl), [Ev.fetchTarget]) := by
    simp only [scrapeUrl, hyt, htw, hf, hok]
    by_cases hp : isPacktFreeLearningUrl env.parsed = true
    · simp [hp]
    · have hp' : isPacktFreeLearningUrl env.parsed = false := by
        rw [Bool.not_eq_true] at hp
        exact hp
      by_cases ha : isAmazonUrl env.parsed = true
      · simp [hp', ha]
      · have ha' : isAmazonUrl env.parsed = false := by
          rw [Bool.not_eq_true] at ha
          exact ha
        simp [hp', ha']
  rw [hred]
  exact ⟨rfl, by simp, rfl⟩

/-- C10 witness: a challenge-titled interstitial served with HTTP 200 is
processed by the generic path and returned as an ordinary record, no
Microlink call in the trace. -/
theorem success_no_fallback_witness :
    (scrapeUrl envC10).2 = [Ev.fetchTarget] ∧
    Ev.microlinkCall ∉ (scrapeUrl envC10).2 ∧
    (scrapeUrl envC10).1 = Except.ok (genericRecord docC10 "https://site.example/a") :=
  success_no_fallback envC10 respC10 rfl rfl rfl rfl

/-- The YouTube extractor always keeps the original URL. -/
theorem yt_url (u : String) (o : YtOutcome) : (extractYouTubeData u o).url = JsStr.str u := by
  cases o <;> rfl

/-- `x || originalUrl` on a possibly-undefined `x`: either a non-empty
discovered string, or the original URL. -/
theorem jsOr_ofOpt_spec (o : Option String) (t : String) :
    (∃ s, ¬ s = "" ∧ o = some s ∧ jsOr (jsOfOpt o) (JsStr.str t) = JsStr.str s) ∨
      jsOr (jsOfOpt o) (JsStr.str t) = JsStr.str t := by
  cases o with
  | none => right; rfl
  | some s =>
    by_cases hs : s = ""
    · subst hs
      right
      rfl
    · left
      refine ⟨s, hs, rfl, ?_⟩
      have hb : (s == "") = false := beq_eq_false_iff_ne.mpr hs
      simp only [jsOr, jsOfOpt, JsStr.truthy, hb, Bool.not_false, if_true]

/-- The Open Graph tail of the canonical URL: a non-empty declared URL or
the original. -/
theorem canonicalOg_spec (d : Doc) (t : String) :
    (¬ extractCanonicalOg d t = "" ∧
      d.attr "meta[property=\"og:url\"]" "content" = some (extractCanonicalOg d t)) ∨
    extractCanonicalOg d t = t := by
  unfold extractCanonicalOg
  cases hu : d.attr "meta[property=\"og:url\"]" "content" with
  | none => right; rfl
  | some v =>
    by_cases hv : v = ""
    · subst hv
      right
      rfl
    · left
      have hb : (v == "") = false := beq_eq_false_iff_ne.mpr hv
      simp only [hb, Bool.not_false, if_true]
      exact ⟨hv, trivial⟩

/-- `extractCanonicalUrl` yields a non-empty URL the document declares, or
the original URL. -/
theorem canonical_spec (d : Doc) (t : String) :
    (¬ extractCanonicalUrl d t = "" ∧ docUrlSignal d (extractCanonicalUrl d t)) ∨
      extractCanonicalUrl d t = t := by
  unfold extractCanonicalUrl
  cases hc : d.attr "link[rel=\"canonical\"]" "href" with
  | none =>
    rcases canonicalOg_spec d t with ⟨h1, h2⟩ | h1
    · exact Or.inl ⟨h1, Or.inr h2⟩
    · exact Or.inr h1
  | some c =>
    by_cases hce : c = ""
    · subst hce
      simp only [show (("" : String) == "") = true from rfl, Bool.not_true, if_false]
      rcases canonicalOg_spec d t with ⟨h1, h2⟩ | h1
      · exact Or.inl ⟨h1, Or.inr h2⟩
      · exact Or.inr h1
    · have hb : (c == "") = false := beq_eq_false_iff_ne.mpr hce
      simp only [hb, Bool.not_false, if_true]
      exact Or.inl ⟨hce, Or.inl hc⟩

/-- The Twitter extractor keeps the original URL, unless the oEmbed body
declares a non-empty one. -/
theorem tw_url (u : String) (fx : FxOutcome) (oe : TwOutcome) :
    (extractTwitterData u fx oe).1.url = JsStr.str u ∨
      (∃ s, ¬ s = "" ∧ twDataUrlOf oe = some s ∧
        (extractTwitterData u fx oe).1.url = JsStr.str s) := by
  have hfb : ∀ evs : List Ev, (twFallback u oe evs).1.url = JsStr.str u ∨
      (∃ s, ¬ s = "" ∧ twDataUrlOf oe = some s ∧
        (twFallback u oe evs).1.url = JsStr.str s) := by
    intro evs
    cases oe with
    | err => left; rfl
    | resp ok data =>
      cases ok with
      | false => left; rfl
      | true =>
        rcases jsOr_ofOpt_spec data.url u with ⟨s, hs, hds, hj⟩ | hj
        · right
          refine ⟨s, hs, ?_, ?_⟩
          · show data.url = some s
            exact hds
          · exact hj
        · left
          exact hj
  cases hm : tweetMatch u with
  | none =>
    simp only [extractTwitterData, hm]
    exact hfb []
  | some pr =>
    cases fx with
    | err =>
      simp only [extractTwitterData, hm]
      exact hfb [Ev.fxCall]
    | resp ok p =>
      cases ok with
      | false =>
        simp only [extractTwitterData, hm]
        exact hfb [Ev.fxCall]
      | true =>
        cases ht : p.tweet with
        | none =>
          simp only [extractTwitterData, hm, ht]
          exact hfb [Ev.fxCall]
        | some t =>
          simp only [extractTwitterData, hm, ht]
          left
          rfl

/-- The Microlink record keeps the requested URL unless its body declares a
non-empty one. -/
theorem ml_url (t : String) (o : MlOutcome) (mr : ScrapedData)
    (h : extractWithMicrolink t o = some mr) :
    (∃ s, ¬ s = "" ∧ mlUrlOf o = some s ∧ mr.url = JsStr.str s) ∨ mr.url = JsStr.str t := by
  cases o with
  | err => exact absurd h (by simp [extractWithMicrolink])
  | resp ok json =>
    cases ok with
    | false => exact absurd h (by simp [extractWithMicrolink])
    | true =>
      by_cases hst : json.status = "success"
      · cases hd : json.data with
        | none =>
          rw [show extractWithMicrolink t (MlOutcome.resp true json) = none from by
            simp [extractWithMicrolink, hst, hd]] at h
          exact Option.noConfusion h
        | some data =>
          have hurl : mr.url = jsOr (jsOfOpt data.url) (JsStr.str t) := by
            have h2 : extractWithMicrolink t (MlOutcome.resp true json) = some
                { title := jsOrNull (jsOfOpt data.title)
                , description := jsOrNull (jsOfOpt data.description)
                , image := jsOr (jsOfOpt (data.image.bind MlImage.url))
                    (jsOrNull (jsOfOpt (data.logo.bind MlImage.url)))
                , url := jsOr (jsOfOpt data.url) (JsStr.str t)
                , author := jsOr (jsOfOpt data.author) (jsOrNull (jsOfOpt data.publisher))
                , publicationDate := JsStr.nullv
                , pages := JsStr.nullv } := by
              simp only [extractWithMicrolink, hst, hd]
              rfl
            rw [h2] at h
            injection h with h3
            rw [← h3]
          rcases jsOr_ofOpt_spec data.url t with ⟨s, hs, hds, hj⟩ | hj
          · left
            refine ⟨s, hs, ?_, by rw [hurl]; exact hj⟩
            show mlUrlOf (MlOutcome.resp true json) = some s
            simp only [mlUrlOf, hd]
            exact hds
          · right
            rw [hurl]
            exact hj
      · exact absurd h (by simp [extractWithMicrolink, beq_eq_false_iff_ne.mpr hst])

/-- The Packt record's URL: a non-empty canonical link or the original. -/
theorem packt_url_spec (d : Doc) (t : String) :
    (∃ s, ¬ s = "" ∧ d.attr "link[rel=\"canonical\"]" "href" = some s ∧
      (extractPacktData d t).url = JsStr.str s) ∨ (extractPacktData d t).url = JsStr.str t := by
  have hurl : (extractPacktData d t).url =
      jsOr (jsOfOpt (d.attr "link[rel=\"canonical\"]" "href")) (JsStr.str t) := rfl
  rcases jsOr_ofOpt_spec (d.attr "link[rel=\"canonical\"]" "href") t with ⟨s, hs, hds, hj⟩ | hj
  · left
    exact ⟨s, hs, hds, by rw [hurl]; exact hj⟩
  · right
    rw [hurl]
    exact hj

/-- The Amazon record's URL: a non-empty canonical link or the original. -/
theorem amazon_url_spec (d : Doc) (t : String) :
    (∃ s, ¬ s = "" ∧ d.attr "link[rel=\"canonical\"]" "href" = some s ∧
      (extractAmazonData d t).url = JsStr.str s) ∨ (extractAmazonData d t).url = JsStr.str t := by
  have hurl : (extractAmazonData d t).url =
      JsStr.str (match d.attr "link[rel=\"canonical\"]" "href" with
        | some c => if !(c == "") then c else t
        | none => t) := rfl
  cases hc : d.attr "link[rel=\"canonical\"]" "href" with
  | none =>
    right
    rw [hurl, hc]
  | some c =>
    by_cases hce : c = ""
    · subst hce
      right
      rw [hurl, hc]
      rfl
    · left
      refine ⟨c, hce, rfl, ?_⟩
      rw [hurl, hc]
      have hb : (c == "") = false := beq_eq_false_iff_ne.mpr hce
      simp only [hb, Bool.not_false, if_true]

/-- Routing of `scrapeUrl` on a success status. -/
theorem scrape_ok_route (env : ScrapeEnv) (resp : FetchResp)
    (hyt : isYouTubeUrl env.parsed = false) (htw : isTwitterUrl env.parsed = false)
    (hf : env.fetched = some resp) (hok : resp.ok = true) :
    scrapeUrl env =
      (Except.ok (if isPacktFreeLearningUrl env.parsed then extractPacktData resp.doc env.targetUrl
        else if isAmazonUrl env.parsed then extractAmazonData resp.doc env.targetUrl
        else genericRecord resp.doc env.targetUrl), [Ev.fetchTarget]) := by
  simp only [scrapeUrl, hyt, htw, hf, hok]
  by_cases hp : isPacktFreeLearningUrl env.parsed = true
  · simp [hp]
  · have hp' : isPacktFreeLearningUrl env.parsed = false := by
      rw [Bool.not_eq_true] at hp
      exact hp
    by_cases ha : isAmazonUrl env.parsed = true
    · simp [hp', ha]
    · have ha' : isAmazonUrl env.parsed = false := by
        rw [Bool.not_eq_true] at ha
        exact ha
      simp [hp', ha']

/-- Routing of `scrapeUrl` on a non-success status. -/
theorem scrape_notok_route (env : ScrapeEnv) (resp : FetchResp)
    (hyt : isYouTubeUrl env.parsed = false) (htw : isTwitterUrl env.parsed = false)
    (hf : env.fetched = some resp) (hok : resp.ok = false) :
    scrapeUrl env = scrapeNotOk env resp := by
  simp only [scrapeUrl, hyt, htw, hf, hok]
  rfl

/-- C1: every record `scrapeUrl` returns carries a string `url` that is a
non-empty discovered canonical / Open Graph / vendor-reported URL or else
the original input URL; in particular it is non-empty whenever the input
URL is. -/
theorem scrapeUrl_url_fallback (env : ScrapeEnv) (r : ScrapedData) (tr : List Ev)
    (h : scrapeUrl env = (Except.ok r, tr)) :
    ∃ u, r.url = JsStr.str u ∧
      ((¬ u = "" ∧ discoveredUrl env u) ∨ u = env.targetUrl) ∧
      (¬ env.targetUrl = "" → ¬ u = "") := by
  by_cases hyt : isYouTubeUrl env.parsed = true
  · have h' : extractYouTubeData env.targetUrl env.yt = r := by
      have hh := h
      simp [scrapeUrl, hyt, Prod.mk.injEq] at hh
      exact hh.1
    refine ⟨env.targetUrl, ?_, Or.inr rfl, fun hn => hn⟩
    rw [← h']
    exact yt_url env.targetUrl env.yt
  · rw [Bool.not_eq_true] at hyt
    by_cases htw : isTwitterUrl env.parsed = true
    · have h' : (extractTwitterData env.targetUrl env.fx env.twOe).1 = r := by
        have hh := h
        simp [scrapeUrl, hyt, htw, Prod.mk.injEq] at hh
        exact hh.1
      rcases tw_url env.targetUrl env.fx env.twOe with hu | ⟨s, hs, hds, hu⟩
      · refine ⟨env.targetUrl, ?_, Or.inr rfl, fun hn => hn⟩
        rw [← h']
        exact hu
      · refine ⟨s, ?_, Or.inl ⟨hs, Or.inr (Or.inr hds)⟩, fun _ => hs⟩
        rw [← h']
        exact hu
    · rw [Bool.not_eq_true] at htw
      cases hf : env.fetched with
      | none =>
        rw [show scrapeUrl env = (Except.error ScrapeErr.network, [Ev.fetchTarget]) from by
          simp only [scrapeUrl, hyt, htw, hf]; rfl] at h
        simp [Prod.mk.injEq] at h
      | some resp =>
        by_cases hok : resp.ok = true
        · rw [scrape_ok_route env resp hyt htw hf hok] at h
          have hr : (if isPacktFreeLearningUrl env.parsed then
                extractPacktData resp.doc env.targetUrl
              else if isAmazonUrl env.parsed then extractAmazonData resp.doc env.targetUrl
              else genericRecord resp.doc env.targetUrl) = r := by
            have hh := h
            simp only [Prod.mk.injEq, Except.ok.injEq] at hh
            exact hh.1
          by_cases hp : isPacktFreeLearningUrl env.parsed = true
          · rw [hp, if_pos rfl] at hr
            rcases packt_url_spec resp.doc env.targetUrl with ⟨s, hs, hds, hu⟩ | hu
            · exact ⟨s, by rw [← hr]; exact hu,
                Or.inl ⟨hs, Or.inl ⟨resp, hf, Or.inl hds⟩⟩, fun _ => hs⟩
            · exact ⟨env.targetUrl, by rw [← hr]; exact hu, Or.inr rfl, fun hn => hn⟩
          · rw [Bool.not_eq_true] at hp
            rw [hp, if_neg (by decide)] at hr
            by_cases ha : isAmazonUrl env.parsed = true
            · rw [ha, if_pos rfl] at hr
              rcases amazon_url_spec resp.doc env.targetUrl with ⟨s, hs, hds, hu⟩ | hu
              · exact ⟨s, by rw [← hr]; exact hu,
                  Or.inl ⟨hs, Or.inl ⟨resp, hf, Or.inl hds⟩⟩, fun _ => hs⟩
              · exact ⟨env.targetUrl, by rw [← hr]; exact hu, Or.inr rfl, fun hn => hn⟩
            · rw [Bool.not_eq_true] at ha
              rw [ha, if_neg (by decide)] at hr
              have hu : r.url = JsStr.str (extractCanonicalUrl resp.doc env.targetUrl) := by
                rw [← hr]
                rfl
              rcases canonical_spec resp.doc env.targetUrl with ⟨h1, h2⟩ | h1
              · exact ⟨extractCanonicalUrl resp.doc env.targetUrl, hu,
                  Or.inl ⟨h1, Or.inl ⟨resp, hf, h2⟩⟩, fun _ => h1⟩
              · refine ⟨env.targetUrl, ?_, Or.inr rfl, fun hn => hn⟩
                rw [hu, h1]
        · rw [Bool.not_eq_true] at hok
          rw [scrape_notok_route env resp hyt htw hf hok] at h
          simp only [scrapeNotOk] at h
          split at h
          · have hr : partialRecord resp.doc env.targetUrl = r := by
              have hh := h
              simp only [Prod.mk.injEq, Except.ok.injEq] at hh
              exact hh.1
            have hu : r.url = JsStr.str (extractCanonicalUrl resp.doc env.targetUrl) := by
              rw [← hr]
              rfl
            rcases canonical_spec resp.doc env.targetUrl with ⟨h1, h2⟩ | h1
            · exact ⟨extractCanonicalUrl resp.doc env.targetUrl, hu,
                Or.inl ⟨h1, Or.inl ⟨resp, hf, h2⟩⟩, fun _ => h1⟩
            · refine ⟨env.targetUrl, ?_, Or.inr rfl, fun hn => hn⟩
              rw [hu, h1]
          · split at h
            · next mr hml =>
              split at h
              · have hr : mr = r := by
                  have hh := h
                  simp only [Prod.mk.injEq, Except.ok.injEq] at hh
                  exact hh.1
                rcases ml_url env.targetUrl env.ml mr hml with ⟨s, hs, hds, hu⟩ | hu
                · exact ⟨s, by rw [← hr]; exact hu,
                    Or.inl ⟨hs, Or.inr (Or.inl hds)⟩, fun _ => hs⟩
                · exact ⟨env.targetUrl, by rw [← hr]; exact hu, Or.inr rfl, fun hn => hn⟩
              · simp [Prod.mk.injEq] at h
            · simp [Prod.mk.injEq] at h

/-- C1 witness: at a concrete environment (a YouTube URL whose oEmbed call
fails) the returned record's URL is the non-empty original input. -/
theorem scrapeUrl_url_fallback_witness :
    ∃ u, (extractYouTubeData "https://www.youtube.com/watch?v=abc" YtOutcome.fail).url =
        JsStr.str u ∧
      ((¬ u = "" ∧ discoveredUrl envC1w u) ∨ u = envC1w.targetUrl) ∧
      (¬ envC1w.targetUrl = "" → ¬ u = "") :=
  scrapeUrl_url_fallback envC1w
    (extractYouTubeData "https://www.youtube.com/watch?v=abc" YtOutcome.fail)
    [Ev.ytOembedCall] rfl
